import Mathlib

/-!
Verification of the GeneVisualizations migration scripts.

This file gives a shallow embedding of the schema-derivation, column
canonicalization, enrichment parsing and upsert logic of the repository
(`backend/migrations/schema_definitions.py`,
`backend/database/migrations/migrate_rna_seq_data.py`,
`backend/database/migrations/migrate_enrichment_data.py`) and proves
properties of that embedding.

Python strings are modelled by Lean `String`; `str.lower()` is modelled by
ASCII lowercasing (all inputs of interest are ASCII), `s.startswith p` /
`s.endswith p` / `p in s` by list prefix / suffix / infix tests on the
character data.  Machine floats are modelled by `Rat` (only the literals
0.0 and 1.0 occur in the code).  Database tables are modelled by lists of
rows, and the PostgreSQL execution of the generated
INSERT ... ON CONFLICT statements by explicit row-level update functions.
-/

namespace GeneVis

/-- ASCII lowercasing of one character: model of Python `str.lower` on a
single ASCII character (code points 65-90 are shifted by 32). -/
def charLower (c : Char) : Char :=
  if 65 ≤ c.toNat ∧ c.toNat ≤ 90 then Char.ofNat (c.toNat + 32) else c

/-- Model of Python `s.lower()` for ASCII strings. -/
def strToLower (s : String) : String :=
  String.mk (s.data.map charLower)

/-- Model of Python `s.startswith p`. -/
def strStarts (s p : String) : Bool := decide (p.data <+: s.data)

/-- Model of Python `s.endswith p`. -/
def strEnds (s p : String) : Bool := decide (p.data <:+ s.data)

/-- Model of Python `p in s` (substring containment). -/
def containsSub (needle hay : String) : Bool := decide (needle.data <:+: hay.data)

/-- Per-column mapping of `map_csv_to_database_columns`
(`migrate_rna_seq_data.py`): the two special-cased headers are renamed,
every other header is lowercased. -/
def mapColumn (col : String) : String :=
  if col = "log2FoldChange" then "log2foldchange"
  else if col = "-log10(padj)" then "log10_padj"
  else strToLower col

/-- Column list of the dataframe produced by `map_csv_to_database_columns`:
the mapping applied to every CSV header. -/
def mapCsvToDatabaseColumns (cols : List String) : List String :=
  cols.map mapColumn

/-! ### Schema derivation (`schema_definitions.get_create_table_sql`) -/

/-- The `base_columns` list of `get_create_table_sql`, verbatim (comments
and empty separator strings included, as in the source). -/
def baseColumns : List String :=
  ["-- Gene identification",
   "gene_id VARCHAR(50) PRIMARY KEY",
   "gene_name VARCHAR(100)",
   "gene_chr VARCHAR(10)",
   "gene_start BIGINT",
   "gene_end BIGINT",
   "gene_strand VARCHAR(1)",
   "gene_length INTEGER",
   "gene_biotype VARCHAR(50)",
   "gene_description TEXT",
   "tf_family VARCHAR(50)",
   "",
   "-- Statistical analysis results",
   "log2foldchange DOUBLE PRECISION",
   "pvalue DOUBLE PRECISION",
   "padj DOUBLE PRECISION",
   "log10_padj DOUBLE PRECISION",
   "",
   "-- Metadata",
   "created_at TIMESTAMP DEFAULT CURRENT_TIMESTAMP"]

/-- Sample-expression bucket test of the classification loop in
`get_create_table_sql`, applied to the lowercased column name:
`col_lower.startswith('shef') and not any(suffix in col_lower for suffix in
['_readcount', '_fpkm', 'readcount', 'fpkm'])`. -/
def isSampleCol (l : String) : Bool :=
  strStarts l "shef" &&
    !(containsSub "_readcount" l || containsSub "_fpkm" l ||
      containsSub "readcount" l || containsSub "fpkm" l)

/-- Read-count bucket test:
`'_readcount' in col_lower or col_lower.endswith('readcount')`. -/
def isReadcountCol (l : String) : Bool :=
  containsSub "_readcount" l || strEnds l "readcount"

/-- FPKM bucket test: `'_fpkm' in col_lower or col_lower.endswith('fpkm')`. -/
def isFpkmCol (l : String) : Bool :=
  containsSub "_fpkm" l || strEnds l "fpkm"

/-- The `sample_columns` names accumulated by the classification loop (the
loop appends `col_lower` entries in order; the `if` branch applies). -/
def sampleColumnNames (cols : List String) : List String :=
  (cols.map strToLower).filter isSampleCol

/-- The `readcount_columns` names (the first `elif` branch: reached only
when the sample test failed). -/
def readcountColumnNames (cols : List String) : List String :=
  (cols.map strToLower).filter (fun l => !isSampleCol l && isReadcountCol l)

/-- The `fpkm_columns` names (the second `elif` branch: reached only when
the sample and read-count tests failed). -/
def fpkmColumnNames (cols : List String) : List String :=
  (cols.map strToLower).filter
    (fun l => !isSampleCol l && !isReadcountCol l && isFpkmCol l)

/-- The `all_columns` list assembled by `get_create_table_sql` when a
column list is given: slices of `base_columns` interleaved with the three
dynamic buckets, each bucket preceded by a separator and a comment when
non-empty. -/
def allColumns (cols : List String) : List String :=
  let sample := (sampleColumnNames cols).map (fun n => n ++ " DOUBLE PRECISION")
  let readc := (readcountColumnNames cols).map (fun n => n ++ " INTEGER")
  let fpkm := (fpkmColumnNames cols).map (fun n => n ++ " DOUBLE PRECISION")
  (baseColumns.take 10)
    ++ (if sample.isEmpty then [] else ["", "-- Sample expression values"] ++ sample)
    ++ ((baseColumns.drop 10).take 6)
    ++ (if readc.isEmpty then [] else ["", "-- Read counts for each sample"] ++ readc)
    ++ (if fpkm.isEmpty then [] else ["", "-- FPKM values for each sample"] ++ fpkm)
    ++ (baseColumns.drop 16)

/-- The fallback `sql_columns` used when no column list is provided. -/
def defaultSqlColumns : List String :=
  ["gene_id VARCHAR(50) PRIMARY KEY",
   "gene_name VARCHAR(100)",
   "gene_chr VARCHAR(10)",
   "gene_start BIGINT",
   "gene_end BIGINT",
   "gene_strand VARCHAR(1)",
   "gene_length INTEGER",
   "gene_biotype VARCHAR(50)",
   "gene_description TEXT",
   "tf_family VARCHAR(50)",
   "shef21 DOUBLE PRECISION",
   "shef22 DOUBLE PRECISION",
   "shef24 DOUBLE PRECISION",
   "shef25 DOUBLE PRECISION",
   "shef1 DOUBLE PRECISION",
   "shef2 DOUBLE PRECISION",
   "shef3 DOUBLE PRECISION",
   "shef4 DOUBLE PRECISION",
   "shef5 DOUBLE PRECISION",
   "log2foldchange DOUBLE PRECISION",
   "pvalue DOUBLE PRECISION",
   "padj DOUBLE PRECISION",
   "log10_padj DOUBLE PRECISION",
   "shef21_readcount INTEGER",
   "shef22_readcount INTEGER",
   "shef24_readcount INTEGER",
   "shef25_readcount INTEGER",
   "shef1_readcount INTEGER",
   "shef2_readcount INTEGER",
   "shef3_readcount INTEGER",
   "shef4_readcount INTEGER",
   "shef5_readcount INTEGER",
   "shef21_fpkm DOUBLE PRECISION",
   "shef22_fpkm DOUBLE PRECISION",
   "shef24_fpkm DOUBLE PRECISION",
   "shef25_fpkm DOUBLE PRECISION",
   "shef1_fpkm DOUBLE PRECISION",
   "shef2_fpkm DOUBLE PRECISION",
   "shef3_fpkm DOUBLE PRECISION",
   "shef4_fpkm DOUBLE PRECISION",
   "shef5_fpkm DOUBLE PRECISION",
   "created_at TIMESTAMP DEFAULT CURRENT_TIMESTAMP"]

/-- The `sql_columns` list of `get_create_table_sql`: the assembled columns
with empty strings and `--` comment lines filtered out, or the fallback
list when no columns are given. -/
def sqlColumns (cols : Option (List String)) : List String :=
  match cols with
  | some cs => (allColumns cs).filter (fun s => !s.isEmpty && !strStarts s "--")
  | none => defaultSqlColumns

/-- The CREATE TABLE statement returned by `get_create_table_sql`. -/
def getCreateTableSql (comparisonName : String) (cols : Option (List String)) : String :=
  "\n    CREATE TABLE IF NOT EXISTS \"" ++ comparisonName ++ "\" (\n        "
    ++ String.intercalate ",\n        " (sqlColumns cols)
    ++ "\n    );\n    "

/-- The constant tail of the statement built by `get_insert_sql`: the
ON CONFLICT clause updates only `gene_name`. -/
def rnaConflictClause : String :=
  ")\n    ON CONFLICT (gene_id) DO UPDATE SET\n        gene_name = EXCLUDED.gene_name\n    "

/-- The INSERT statement returned by `get_insert_sql`: one column name and
one `%s` placeholder per entry of `columns`. -/
def getInsertSql (comparisonName : String) (columns : List String) : String :=
  "\n    INSERT INTO \"" ++ comparisonName ++ "\" ("
    ++ String.intercalate ", " columns
    ++ ")\n    VALUES ("
    ++ String.intercalate ", " (columns.map (fun _ => "%s"))
    ++ rnaConflictClause

/-- The gene-annotation column names of `base_columns` that precede the
sample bucket in the assembled schema (`base_columns[:10]`). -/
def baseColumnNamesA : List String :=
  ["gene_id", "gene_name", "gene_chr", "gene_start", "gene_end",
   "gene_strand", "gene_length", "gene_biotype", "gene_description"]

/-- The column names of `base_columns[10:16]` (between the sample and
read-count buckets). -/
def baseColumnNamesB : List String :=
  ["tf_family", "log2foldchange", "pvalue", "padj"]

/-- The column names of `base_columns[16:]` (after the FPKM bucket). -/
def baseColumnNamesC : List String :=
  ["log10_padj", "created_at"]

/-- All fixed column names of the derived table (present whatever the CSV
header is). -/
def fixedColumnNames : List String :=
  baseColumnNamesA ++ baseColumnNamesB ++ baseColumnNamesC

/-- The column names declared by the CREATE TABLE statement that
`get_create_table_sql` derives from a CSV header: the fixed columns
interleaved with the three dynamic buckets, in assembly order.  The lemma
`sqlColumns_names` below connects this list to the literal `sql_columns`
entries. -/
def tableColumnNames (cols : List String) : List String :=
  baseColumnNamesA ++ sampleColumnNames cols ++ baseColumnNamesB
    ++ readcountColumnNames cols ++ fpkmColumnNames cols ++ baseColumnNamesC

/-! ### RNA-seq row upsert semantics

`get_insert_sql` generates
`INSERT ... ON CONFLICT (gene_id) DO UPDATE SET gene_name = EXCLUDED.gene_name`.
We model a row of a comparison table and the PostgreSQL execution of that
statement on one row: on a primary-key conflict only `gene_name` is
assigned, every other column of the existing row is untouched. -/

/-- A row of a dynamically derived comparison table.  `α` is the value
type of the non-key columns; the variable-width per-sample columns are
name-value lists. -/
structure GeneRow (α : Type) where
  gene_id : String
  gene_name : α
  log2foldchange : α
  pvalue : α
  padj : α
  log10_padj : α
  samples : List (String × α)
  readcounts : List (String × α)
  fpkms : List (String × α)
deriving DecidableEq

/-- The row transformation of the DO UPDATE branch: a row whose primary key
equals the incoming row's `gene_id` gets `gene_name := EXCLUDED.gene_name`
and nothing else; other rows are untouched. -/
def rnaConflictUpdate {α : Type} (new : GeneRow α) (r : GeneRow α) : GeneRow α :=
  if r.gene_id = new.gene_id then { r with gene_name := new.gene_name } else r

/-- PostgreSQL execution of the generated INSERT ... ON CONFLICT statement
for a single incoming row against a table: update in place on conflict,
append otherwise. -/
def rnaUpsertRow {α : Type} [DecidableEq α] (new : GeneRow α) (t : List (GeneRow α)) :
    List (GeneRow α) :=
  if t.any (fun r => decide (r.gene_id = new.gene_id)) then
    t.map (rnaConflictUpdate new)
  else t ++ [new]

/-- Model of `insert_data_to_database` (`migrate_rna_seq_data.py`): the
whole batch runs in one transaction; `err` marks a `psycopg2.Error` raised
during the batch, in which case the code calls `conn.rollback()` (the table
keeps its previous state) and then `sys.exit(1)` — modelled as
`Except.error 1`. -/
def insertDataToDatabase {α : Type} [DecidableEq α]
    (t rows : List (GeneRow α)) (err : Bool) :
    Except Nat (List (GeneRow α) × Nat) :=
  if err then Except.error 1
  else Except.ok (rows.foldl (fun t r => rnaUpsertRow r t) t, rows.length)

/-- Model of the `--all` loop of `migrate_rna_seq_data.main`: each unit is
a comparison name together with a flag marking whether its batch insert
raises a database error.  `insert_data_to_database` calls `sys.exit(1)` on
error, and `SystemExit` is not caught by the `except Exception` handler of
`migrate_single_comparison`, so the process dies and later comparisons are
never reached; on success the comparison is appended to the processed
list. -/
def migrateAllRna : List (String × Bool) → Except Nat (List String)
  | [] => Except.ok []
  | (c, err) :: rest =>
    if err then Except.error 1
    else
      match migrateAllRna rest with
      | Except.ok done => Except.ok (c :: done)
      | Except.error e => Except.error e

/-! ### Enrichment parsing (`migrate_enrichment_data.parse_enrichment_file`) -/

/-- A normalized enrichment record, one field per column of the
`enrichment_data` insert statement. -/
structure EnrichmentRecord where
  comparison : String
  database : String
  term_id : String
  term_description : String
  genes_mapped : Int
  enrichment_score : Rat
  direction : String
  false_discovery_rate : Rat
  method : String
  matching_protein_ids : String
  matching_protein_labels : String
deriving DecidableEq

/-- One JSON object of an enrichment input array: each named source key is
either present with a value or absent (Python `item.get(key, default)`). -/
structure EnrichmentItem where
  termId : Option String
  termDescription : Option String
  genesMapped : Option Int
  enrichmentScore : Option Rat
  direction : Option String
  falseDiscoveryRate : Option Rat
  method : Option String
  matchingProteinIds : Option String
  matchingProteinLabels : Option String
deriving DecidableEq

/-- The record built from one JSON object by `parse_enrichment_file`, with
the source's defaults substituted for absent keys: empty strings for text
fields, `0` for `genes mapped`, `0.0` for `enrichment score` and `1.0` for
`false discovery rate`. -/
def buildRecord (comparison database : String) (it : EnrichmentItem) : EnrichmentRecord :=
  { comparison := comparison
    database := database
    term_id := it.termId.getD ""
    term_description := it.termDescription.getD ""
    genes_mapped := it.genesMapped.getD 0
    enrichment_score := it.enrichmentScore.getD 0
    direction := it.direction.getD ""
    false_discovery_rate := it.falseDiscoveryRate.getD 1
    method := it.method.getD ""
    matching_protein_ids := it.matchingProteinIds.getD ""
    matching_protein_labels := it.matchingProteinLabels.getD "" }

/-- The record loop of `parse_enrichment_file`: build a record per object
and skip (`continue`) any record whose `term_id` or `term_description` is
empty. -/
def parseItems (comparison database : String) : List EnrichmentItem → List EnrichmentRecord
  | [] => []
  | it :: rest =>
    if (buildRecord comparison database it).term_id = "" ∨
        (buildRecord comparison database it).term_description = "" then
      parseItems comparison database rest
    else buildRecord comparison database it :: parseItems comparison database rest

/-- The drop test of the record loop, as a Bool predicate on the input
object: the built record lacks a non-empty term identifier or
description. -/
def isDropped (comparison database : String) (it : EnrichmentItem) : Bool :=
  decide ((buildRecord comparison database it).term_id = "" ∨
    (buildRecord comparison database it).term_description = "")

/-- Outcome of `json.load` on one enrichment file: a decode/read error, a
JSON value that is not an array, or an array of objects. -/
inductive JsonContent where
  | invalid
  | nonArray
  | array (items : List EnrichmentItem)
deriving DecidableEq

/-- One discovered enrichment file: its comparison (parent directory),
mapped database name, and content. -/
structure EnrichmentFile where
  comparison : String
  database : String
  content : JsonContent
deriving DecidableEq

/-- `parse_enrichment_file`: decode/read errors and non-array contents
yield an empty record list (the function returns `[]` instead of raising);
arrays go through the record loop. -/
def parseEnrichmentFile (f : EnrichmentFile) : List EnrichmentRecord :=
  match f.content with
  | JsonContent.invalid => []
  | JsonContent.nonArray => []
  | JsonContent.array items => parseItems f.comparison f.database items

/-- The `all_records` accumulation loop of `migrate_enrichment_data`:
`all_records.extend(records)` over the discovered files in order. -/
def allRecords (files : List EnrichmentFile) : List EnrichmentRecord :=
  files.foldl (fun acc f => acc ++ parseEnrichmentFile f) []

/-! ### Enrichment upsert semantics (`insert_enrichment_data`)

The insert statement upserts on the natural key
(`comparison`, `database`, `term_id`); the DO UPDATE branch assigns every
non-key column from EXCLUDED and sets `updated_at = CURRENT_TIMESTAMP`. -/

/-- The natural key of an enrichment record. -/
def enrichKey (r : EnrichmentRecord) : String × String × String :=
  (r.comparison, r.database, r.term_id)

/-- A stored row of `enrichment_data`: the record fields plus the
`updated_at` timestamp column (time is modelled by `Nat`). -/
structure EnrichmentRow where
  record : EnrichmentRecord
  updated_at : Nat
deriving DecidableEq

/-- The natural key of a stored row. -/
def rowKey (row : EnrichmentRow) : String × String × String :=
  enrichKey row.record

/-- Whether the table holds a row with the given natural key. -/
def hasKey (k : String × String × String) (t : List EnrichmentRow) : Bool :=
  t.any (fun row => decide (rowKey row = k))

/-- The DO UPDATE branch applied to one stored row: a row whose key
conflicts with the incoming record gets every non-key column from EXCLUDED
(together with the key columns, whose values coincide, this is the whole
record) and `updated_at := now`; other rows are untouched. -/
def applyConflict (now : Nat) (r : EnrichmentRecord) (row : EnrichmentRow) : EnrichmentRow :=
  if rowKey row = enrichKey r then ⟨r, now⟩ else row

/-- PostgreSQL execution of the enrichment upsert for one record: update
the conflicting row in place, or append a fresh row (whose `updated_at`
default is the statement timestamp). -/
def upsertEnrichment (now : Nat) (r : EnrichmentRecord) (t : List EnrichmentRow) :
    List EnrichmentRow :=
  if hasKey (enrichKey r) t then t.map (applyConflict now r)
  else t ++ [⟨r, now⟩]

/-- Execution of `execute_batch`: the upsert applied to each record in
order within one transaction. -/
def insertAllEnrichment (now : Nat) (recs : List EnrichmentRecord)
    (t : List EnrichmentRow) : List EnrichmentRow :=
  recs.foldl (fun t r => upsertEnrichment now r t) t

/-- The per-row residual update applied by a record sequence to one stored
row (used to relate a second pass of `insertAllEnrichment` to the first). -/
def updAll (now : Nat) (recs : List EnrichmentRecord) (row : EnrichmentRow) : EnrichmentRow :=
  recs.foldl (fun row r => applyConflict now r row) row

/-- The last record of a list whose key is `k`, if any (the record whose
values win the upsert for that key). -/
def lastMatch (k : String × String × String) : List EnrichmentRecord → Option EnrichmentRecord
  | [] => none
  | r :: rest =>
    match lastMatch k rest with
    | some r2 => some r2
    | none => if enrichKey r = k then some r else none

/-- Model of `insert_enrichment_data`: an empty record list returns 0
without touching the table; a database error during the batch rolls the
transaction back (table unchanged) and returns 0; otherwise all records
are upserted and their count is returned. -/
def insertEnrichmentData (t : List EnrichmentRow) (recs : List EnrichmentRecord)
    (err : Bool) (now : Nat) : List EnrichmentRow × Nat :=
  if recs.isEmpty then (t, 0)
  else if err then (t, 0)
  else (insertAllEnrichment now recs t, recs.length)

/-! ### Enrichment pipeline control flow and exit codes -/

/-- Outcome of probing the source directory in `find_enrichment_files`:
either the directory is missing (the code calls `sys.exit(1)`) or it
yields a list of discovered files. -/
inductive ScanOutcome where
  | missingDir
  | found (files : List EnrichmentFile)
deriving DecidableEq

/-- `find_enrichment_files`: exit code 1 on a missing source directory,
otherwise the discovered files. -/
def findEnrichmentFiles : ScanOutcome → Except Nat (List EnrichmentFile)
  | ScanOutcome.missingDir => Except.error 1
  | ScanOutcome.found fs => Except.ok fs

/-- Summary counters reported by a run of `migrate_enrichment_data`. -/
structure MigStats where
  filesFound : Nat
  recordsParsed : Nat
  inserted : Nat
deriving DecidableEq

/-- Model of `migrate_enrichment_data`: scan (propagating the `sys.exit(1)`
of a missing directory), then return normally (`return`, not an exit) when
no files are found or no valid records are parsed, then skip insertion on
a dry run, otherwise insert. -/
def migrateEnrichmentRun (scan : ScanOutcome) (dryRun dbErr : Bool) (now : Nat)
    (t : List EnrichmentRow) : Except Nat MigStats :=
  match findEnrichmentFiles scan with
  | Except.error e => Except.error e
  | Except.ok files =>
    if files.isEmpty then Except.ok ⟨files.length, 0, 0⟩
    else
      let recs := allRecords files
      if recs.isEmpty then Except.ok ⟨files.length, 0, 0⟩
      else if dryRun then Except.ok ⟨files.length, recs.length, 0⟩
      else Except.ok ⟨files.length, recs.length, (insertEnrichmentData t recs dbErr now).2⟩

/-- How the body of `main` terminates: normal completion, an uncaught
`Exception`, or a `KeyboardInterrupt`. -/
inductive RunEvent where
  | completed
  | raised
  | interrupted
deriving DecidableEq

/-- Exit code of `migrate_enrichment_data.main`: `KeyboardInterrupt` and
unhandled exceptions are caught and turn into `sys.exit(1)`; a `SystemExit`
escaping `migrate_enrichment_data` keeps its code; normal completion falls
off the end of `main` and the process exits 0. -/
def mainExitCode (scan : ScanOutcome) (dryRun dbErr : Bool) (now : Nat)
    (t : List EnrichmentRow) (ev : RunEvent) : Nat :=
  match ev with
  | RunEvent.interrupted => 1
  | RunEvent.raised => 1
  | RunEvent.completed =>
    match migrateEnrichmentRun scan dryRun dbErr now t with
    | Except.error e => e
    | Except.ok _ => 0

/-- A concrete enrichment record used by the witness theorems. -/
def recSample : EnrichmentRecord :=
  { comparison := "eIF5A_DDvsWT_EC"
    database := "KEGG"
    term_id := "mmu03010"
    term_description := "Ribosome"
    genes_mapped := 73
    enrichment_score := 1
    direction := "bottom"
    false_discovery_rate := 0
    method := "ks"
    matching_protein_ids := "10090.ENSMUSP"
    matching_protein_labels := "Rpl13" }

/-- A stored row with the same natural key as `recSample` but different
non-key values, used by the witness for C4. -/
def recOld : EnrichmentRecord :=
  { recSample with term_description := "Old", genes_mapped := 1 }

/-- A concrete stored RNA-seq row used by the witness for C2. -/
def rowG : GeneRow Nat :=
  ⟨"g1", 1, 2, 3, 4, 5, [("shef1", 6)], [("shef1_readcount", 7)], [("shef1_fpkm", 8)]⟩

/-- A concrete incoming RNA-seq row with the same `gene_id` as `rowG`. -/
def rowG2 : GeneRow Nat := ⟨"g1", 9, 10, 11, 12, 13, [], [], []⟩

/-- A concrete enrichment JSON object with every source key present,
used by the witness theorems. -/
def itemGood : EnrichmentItem :=
  ⟨some "t1", some "desc", some 3, some 1, some "top", some 0, some "ks",
    some "ids", some "labels"⟩

/-- A concrete enrichment JSON object lacking a term identifier (it is
dropped by validation) and lacking several other keys. -/
def itemBad : EnrichmentItem :=
  ⟨none, some "desc", none, none, none, none, none, none, none⟩

/-- A concrete enrichment file whose content is a valid one-object array. -/
def fileGood : EnrichmentFile := ⟨"c1", "KEGG", JsonContent.array [itemGood]⟩

/-- A concrete enrichment file whose content is undecodable JSON. -/
def fileBad : EnrichmentFile := ⟨"c", "KEGG", JsonContent.invalid⟩

/-! ### Lowercasing lemmas -/

lemma toNat_charOfNat (n : Nat) (h : n < 55296) : (Char.ofNat n).toNat = n := by
  have hv : n.isValidChar := Or.inl h
  simp [Char.ofNat, hv, Char.ofNatAux, Char.toNat, UInt32.toNat, BitVec.toNat_ofNatLt]

lemma charLower_not_upper (c : Char) :
    ¬(65 ≤ (charLower c).toNat ∧ (charLower c).toNat ≤ 90) := by
  unfold charLower
  by_cases h : 65 ≤ c.toNat ∧ c.toNat ≤ 90
  · rw [if_pos h]
    have hlt : c.toNat + 32 < 55296 := by omega
    rw [toNat_charOfNat _ hlt]
    omega
  · rw [if_neg h]
    exact h

lemma charLower_idem (c : Char) : charLower (charLower c) = charLower c := by
  conv_lhs => rw [charLower]
  rw [if_neg (charLower_not_upper c)]

lemma strToLower_idem (s : String) : strToLower (strToLower s) = strToLower s := by
  unfold strToLower
  apply congrArg String.mk
  rw [show (String.mk (s.data.map charLower)).data = s.data.map charLower from rfl,
    List.map_map]
  exact List.map_congr_left (fun a _ => by simp [Function.comp, charLower_idem])

lemma mem_lower_data (s : String) (c : Char) (h : c ∈ (strToLower s).data) :
    ¬(65 ≤ c.toNat ∧ c.toNat ≤ 90) := by
  unfold strToLower at h
  simp only [String.data, List.mem_map] at h
  obtain ⟨x, _, hx⟩ := h
  rw [← hx]
  exact charLower_not_upper x

lemma strToLower_ne_log2FoldChange (s : String) : strToLower s ≠ "log2FoldChange" := by
  intro h
  have hm : ('F' : Char) ∈ (strToLower s).data := by rw [h]; decide
  exact mem_lower_data s 'F' hm (by decide)

lemma mapColumn_of_ne (c : String) (h1 : c ≠ "log2FoldChange") (h2 : c ≠ "-log10(padj)") :
    mapColumn c = strToLower c := by
  unfold mapColumn
  rw [if_neg h1, if_neg h2]

lemma mapColumn_idem_of (c : String)
    (h : strToLower c ≠ "-log10(padj)" ∨ c = "-log10(padj)") :
    mapColumn (mapColumn c) = mapColumn c := by
  by_cases h1 : c = "log2FoldChange"
  · subst h1; decide
  by_cases h2 : c = "-log10(padj)"
  · subst h2; decide
  rw [mapColumn_of_ne c h1 h2]
  have hne2 : strToLower c ≠ "-log10(padj)" := by
    rcases h with h | h
    · exact h
    · exact absurd h h2
  rw [mapColumn_of_ne (strToLower c) (strToLower_ne_log2FoldChange c) hne2]
  exact strToLower_idem c

/-- Claim C3: column-name canonicalization maps `log2FoldChange` to
`log2foldchange`, `-log10(padj)` to `log10_padj`, and every other header to
its verbatim lowercase form, and the result is always a lowercase column
name (a fixed point of lowercasing). -/
theorem c3_column_canonicalization :
    mapColumn "log2FoldChange" = "log2foldchange" ∧
    mapColumn "-log10(padj)" = "log10_padj" ∧
    (∀ c : String, c ≠ "log2FoldChange" → c ≠ "-log10(padj)" →
      mapColumn c = strToLower c) ∧
    (∀ c : String, strToLower (mapColumn c) = mapColumn c) := by
  refine ⟨by decide, by decide, mapColumn_of_ne, ?_⟩
  intro c
  by_cases h1 : c = "log2FoldChange"
  · subst h1; decide
  by_cases h2 : c = "-log10(padj)"
  · subst h2; decide
  rw [mapColumn_of_ne c h1 h2]
  exact strToLower_idem c

/-- Witness for C3 at the concrete header `Notes`. -/
theorem c3_column_canonicalization_witness :
    mapColumn "Notes" = strToLower "Notes" ∧
    strToLower (mapColumn "Notes") = mapColumn "Notes" :=
  ⟨c3_column_canonicalization.2.2.1 "Notes" (by decide) (by decide),
   c3_column_canonicalization.2.2.2 "Notes"⟩

/-- Claim C10, counterexample: canonicalization is not idempotent on the
header list `["-LOG10(PADJ)"]` — one application yields `-log10(padj)`,
a second application turns that into `log10_padj`. -/
theorem c10_counterexample :
    mapCsvToDatabaseColumns (mapCsvToDatabaseColumns ["-LOG10(PADJ)"]) ≠
      mapCsvToDatabaseColumns ["-LOG10(PADJ)"] := by decide

/-- Claim C10, amended: canonicalization is idempotent on every header
that is `-log10(padj)` itself or whose lowercase form is not
`-log10(padj)`; for a header list of such columns applying the mapping
twice equals applying it once. -/
theorem c10_idempotent_amended :
    (∀ c : String, strToLower c ≠ "-log10(padj)" ∨ c = "-log10(padj)" →
      mapColumn (mapColumn c) = mapColumn c) ∧
    (∀ cols : List String,
      (∀ c ∈ cols, strToLower c ≠ "-log10(padj)" ∨ c = "-log10(padj)") →
      mapCsvToDatabaseColumns (mapCsvToDatabaseColumns cols) =
        mapCsvToDatabaseColumns cols) := by
  refine ⟨mapColumn_idem_of, ?_⟩
  intro cols h
  unfold mapCsvToDatabaseColumns
  rw [List.map_map]
  exact List.map_congr_left
    (fun c hc => by
      simp only [Function.comp_apply]
      exact mapColumn_idem_of c (h c hc))

/-- Witness for amended C10 at the concrete header `PADJ`. -/
theorem c10_idempotent_amended_witness :
    mapColumn (mapColumn "PADJ") = mapColumn "PADJ" ∧
    mapCsvToDatabaseColumns (mapCsvToDatabaseColumns ["PADJ"]) =
      mapCsvToDatabaseColumns ["PADJ"] :=
  ⟨c10_idempotent_amended.1 "PADJ" (Or.inl (by decide)),
   c10_idempotent_amended.2 ["PADJ"] (by decide)⟩

/-! ### Schema derivation lemmas -/

lemma mem_table_names_A {n : String} (cols : List String) (h : n ∈ baseColumnNamesA) :
    n ∈ tableColumnNames cols := by
  simp only [tableColumnNames, List.mem_append]
  tauto

lemma mem_table_names_B {n : String} (cols : List String) (h : n ∈ baseColumnNamesB) :
    n ∈ tableColumnNames cols := by
  simp only [tableColumnNames, List.mem_append]
  tauto

lemma mem_table_names_C {n : String} (cols : List String) (h : n ∈ baseColumnNamesC) :
    n ∈ tableColumnNames cols := by
  simp only [tableColumnNames, List.mem_append]
  tauto

lemma mem_table_names_sample {n : String} {cols : List String}
    (h : n ∈ sampleColumnNames cols) : n ∈ tableColumnNames cols := by
  simp only [tableColumnNames, List.mem_append]
  tauto

lemma mem_table_names_readcount {n : String} {cols : List String}
    (h : n ∈ readcountColumnNames cols) : n ∈ tableColumnNames cols := by
  simp only [tableColumnNames, List.mem_append]
  tauto

lemma mem_table_names_fpkm {n : String} {cols : List String}
    (h : n ∈ fpkmColumnNames cols) : n ∈ tableColumnNames cols := by
  simp only [tableColumnNames, List.mem_append]
  tauto

/-- Every entry of the generated `sql_columns` list declares a column whose
name is in `tableColumnNames`: the entry is that name followed by its type
text.  This ties `tableColumnNames` to the literal CREATE TABLE entries. -/
lemma sqlColumns_names (cols : List String) (entry : String)
    (h : entry ∈ sqlColumns (some cols)) :
    ∃ n, n ∈ tableColumnNames cols ∧ ∃ ty, entry = n ++ ty := by
  unfold sqlColumns at h
  rw [List.mem_filter] at h
  obtain ⟨hmem, hp⟩ := h
  simp only [allColumns, List.mem_append] at hmem
  rcases hmem with ((((hA | hS) | hB) | hR) | hF) | hC
  · -- base_columns[:10]
    simp only [baseColumns, List.take, List.mem_cons, List.not_mem_nil, or_false] at hA
    rcases hA with h | h | h | h | h | h | h | h | h | h <;> subst h
    · exact absurd hp (by decide)
    · exact ⟨"gene_id", mem_table_names_A cols (by decide), " VARCHAR(50) PRIMARY KEY", by decide⟩
    · exact ⟨"gene_name", mem_table_names_A cols (by decide), " VARCHAR(100)", by decide⟩
    · exact ⟨"gene_chr", mem_table_names_A cols (by decide), " VARCHAR(10)", by decide⟩
    · exact ⟨"gene_start", mem_table_names_A cols (by decide), " BIGINT", by decide⟩
    · exact ⟨"gene_end", mem_table_names_A cols (by decide), " BIGINT", by decide⟩
    · exact ⟨"gene_strand", mem_table_names_A cols (by decide), " VARCHAR(1)", by decide⟩
    · exact ⟨"gene_length", mem_table_names_A cols (by decide), " INTEGER", by decide⟩
    · exact ⟨"gene_biotype", mem_table_names_A cols (by decide), " VARCHAR(50)", by decide⟩
    · exact ⟨"gene_description", mem_table_names_A cols (by decide), " TEXT", by decide⟩
  · -- sample expression block
    split at hS
    · exact absurd hS (List.not_mem_nil entry)
    · simp only [List.cons_append, List.nil_append, List.mem_cons, List.mem_map] at hS
      rcases hS with h | h | ⟨n, hn, h⟩
      · exact absurd hp (by rw [h]; decide)
      · exact absurd hp (by rw [h]; decide)
      · exact ⟨n, mem_table_names_sample hn, " DOUBLE PRECISION", h.symm⟩
  · -- base_columns[10:16]
    simp only [baseColumns, List.drop, List.take, List.mem_cons, List.not_mem_nil,
      or_false] at hB
    rcases hB with h | h | h | h | h | h <;> subst h
    · exact ⟨"tf_family", mem_table_names_B cols (by decide), " VARCHAR(50)", by decide⟩
    · exact absurd hp (by decide)
    · exact absurd hp (by decide)
    · exact ⟨"log2foldchange", mem_table_names_B cols (by decide), " DOUBLE PRECISION", by decide⟩
    · exact ⟨"pvalue", mem_table_names_B cols (by decide), " DOUBLE PRECISION", by decide⟩
    · exact ⟨"padj", mem_table_names_B cols (by decide), " DOUBLE PRECISION", by decide⟩
  · -- read-count block
    split at hR
    · exact absurd hR (List.not_mem_nil entry)
    · simp only [List.cons_append, List.nil_append, List.mem_cons, List.mem_map] at hR
      rcases hR with h | h | ⟨n, hn, h⟩
      · exact absurd hp (by rw [h]; decide)
      · exact absurd hp (by rw [h]; decide)
      · exact ⟨n, mem_table_names_readcount hn, " INTEGER", h.symm⟩
  · -- FPKM block
    split at hF
    · exact absurd hF (List.not_mem_nil entry)
    · simp only [List.cons_append, List.nil_append, List.mem_cons, List.mem_map] at hF
      rcases hF with h | h | ⟨n, hn, h⟩
      · exact absurd hp (by rw [h]; decide)
      · exact absurd hp (by rw [h]; decide)
      · exact ⟨n, mem_table_names_fpkm hn, " DOUBLE PRECISION", h.symm⟩
  · -- base_columns[16:]
    simp only [baseColumns, List.drop, List.mem_cons, List.not_mem_nil, or_false] at hC
    rcases hC with h | h | h | h <;> subst h
    · exact ⟨"log10_padj", mem_table_names_C cols (by decide), " DOUBLE PRECISION", by decide⟩
    · exact absurd hp (by decide)
    · exact absurd hp (by decide)
    · exact ⟨"created_at", mem_table_names_C cols (by decide),
        " TIMESTAMP DEFAULT CURRENT_TIMESTAMP", by decide⟩

/-- Claim C1, counterexample: for the CSV header `gene_id, notes`, the
unmatched column `notes` is indeed absent from the derived table's column
names, but it IS in the column list used to build the INSERT statement
(the insert uses every dataframe column after renaming), contradicting
the claim that it is absent from the insert statement. -/
theorem c1_counterexample :
    "notes" ∈ mapCsvToDatabaseColumns ["gene_id", "notes"] ∧
    "notes" ∉ tableColumnNames ["gene_id", "notes"] := by decide

/-- Claim C1, amended: a CSV column matching none of the bucket patterns
(its canonical name is not a fixed column and its lowercase form matches
neither the sample-expression, read-count nor FPKM pattern) is absent from
the CREATE TABLE column list — schema derivation raising no error — but it
is present in the column list of the generated INSERT statement. -/
theorem c1_unmatched_column_amended (cols : List String) (c : String)
    (hc : c ∈ cols)
    (hfix : mapColumn c ∉ fixedColumnNames)
    (hs : isSampleCol (strToLower c) = false)
    (hr : isReadcountCol (strToLower c) = false)
    (hf : isFpkmCol (strToLower c) = false) :
    mapColumn c ∉ tableColumnNames cols ∧
    mapColumn c ∈ mapCsvToDatabaseColumns cols := by
  have hmc : mapColumn c = strToLower c := by
    by_cases h1 : c = "log2FoldChange"
    · exfalso; apply hfix; subst h1; decide
    by_cases h2 : c = "-log10(padj)"
    · exfalso; apply hfix; subst h2; decide
    exact mapColumn_of_ne c h1 h2
  constructor
  · intro hmem
    rw [hmc] at hmem
    simp only [tableColumnNames, List.mem_append] at hmem
    rcases hmem with ((((hA | hS) | hB) | hR) | hF) | hC
    · exact hfix (by
        rw [hmc]
        exact List.mem_append.mpr (Or.inl (List.mem_append.mpr (Or.inl hA))))
    · have ht := (List.mem_filter.mp hS).2
      rw [ht] at hs
      exact Bool.noConfusion hs
    · exact hfix (by
        rw [hmc]
        exact List.mem_append.mpr (Or.inl (List.mem_append.mpr (Or.inr hB))))
    · have h2 := (List.mem_filter.mp hR).2
      simp only [Bool.and_eq_true] at h2
      rw [h2.2] at hr
      exact Bool.noConfusion hr
    · have h2 := (List.mem_filter.mp hF).2
      simp only [Bool.and_eq_true] at h2
      rw [h2.2] at hf
      exact Bool.noConfusion hf
    · exact hfix (by rw [hmc]; exact List.mem_append.mpr (Or.inr hC))
  · exact List.mem_map_of_mem mapColumn hc

/-- Witness for amended C1 at the concrete header `gene_id, notes`. -/
theorem c1_unmatched_column_amended_witness :
    mapColumn "notes" ∉ tableColumnNames ["gene_id", "notes"] ∧
    mapColumn "notes" ∈ mapCsvToDatabaseColumns ["gene_id", "notes"] :=
  c1_unmatched_column_amended ["gene_id", "notes"] "notes" (by decide) (by decide)
    (by decide) (by decide) (by decide)

/-! ### RNA-seq conflict-branch frame property -/

/-- Claim C2: when an incoming row's `gene_id` conflicts with an existing
primary key, the generated ON CONFLICT clause refreshes only `gene_name`:
the executed upsert is the per-row conflict update, and that update keeps
`gene_id`, every statistical column and every per-sample column of the
existing row unchanged, setting only `gene_name` from the new row. -/
theorem c2_conflict_updates_only_gene_name {α : Type} [DecidableEq α]
    (new : GeneRow α) (t : List (GeneRow α))
    (h : t.any (fun r => decide (r.gene_id = new.gene_id)) = true) :
    rnaUpsertRow new t = t.map (rnaConflictUpdate new) ∧
    ∀ r : GeneRow α,
      (rnaConflictUpdate new r).gene_id = r.gene_id ∧
      (rnaConflictUpdate new r).log2foldchange = r.log2foldchange ∧
      (rnaConflictUpdate new r).pvalue = r.pvalue ∧
      (rnaConflictUpdate new r).padj = r.padj ∧
      (rnaConflictUpdate new r).log10_padj = r.log10_padj ∧
      (rnaConflictUpdate new r).samples = r.samples ∧
      (rnaConflictUpdate new r).readcounts = r.readcounts ∧
      (rnaConflictUpdate new r).fpkms = r.fpkms ∧
      (r.gene_id = new.gene_id → (rnaConflictUpdate new r).gene_name = new.gene_name) ∧
      (r.gene_id ≠ new.gene_id → rnaConflictUpdate new r = r) := by
  constructor
  · unfold rnaUpsertRow
    rw [if_pos h]
  · intro r
    unfold rnaConflictUpdate
    by_cases hid : r.gene_id = new.gene_id
    · simp [hid]
    · simp [hid]

/-- Witness for C2 at a concrete conflicting pair of rows. -/
theorem c2_conflict_updates_only_gene_name_witness :
    rnaUpsertRow rowG2 [rowG] = List.map (rnaConflictUpdate rowG2) [rowG] ∧
    (rnaConflictUpdate rowG2 rowG).samples = rowG.samples ∧
    (rnaConflictUpdate rowG2 rowG).gene_name = rowG2.gene_name :=
  ⟨(c2_conflict_updates_only_gene_name rowG2 [rowG] (by decide)).1,
   ((c2_conflict_updates_only_gene_name rowG2 [rowG] (by decide)).2 rowG).2.2.2.2.2.1,
   ((c2_conflict_updates_only_gene_name rowG2 [rowG] (by decide)).2 rowG).2.2.2.2.2.2.2.2.1
     rfl⟩

/-! ### Enrichment upsert lemmas -/

lemma rowKey_mk (r : EnrichmentRecord) (now : Nat) :
    rowKey ⟨r, now⟩ = enrichKey r := rfl

lemma rowKey_applyConflict (now : Nat) (r : EnrichmentRecord) (row : EnrichmentRow) :
    rowKey (applyConflict now r row) = rowKey row := by
  unfold applyConflict
  split
  · rename_i h
    rw [rowKey_mk, h]
  · rfl

lemma hasKey_map (now : Nat) (r : EnrichmentRecord) (k : String × String × String)
    (t : List EnrichmentRow) :
    hasKey k (t.map (applyConflict now r)) = hasKey k t := by
  unfold hasKey
  induction t with
  | nil => rfl
  | cons a t ih => simp only [List.map_cons, List.any_cons, rowKey_applyConflict, ih]

lemma hasKey_upsert_self (now : Nat) (r : EnrichmentRecord) (t : List EnrichmentRow) :
    hasKey (enrichKey r) (upsertEnrichment now r t) = true := by
  unfold upsertEnrichment
  split
  · rename_i h
    rw [hasKey_map]
    exact h
  · unfold hasKey
    rw [List.any_append]
    simp [rowKey_mk]

lemma hasKey_upsert_mono (now : Nat) (r : EnrichmentRecord) (k : String × String × String)
    (t : List EnrichmentRow) (h : hasKey k t = true) :
    hasKey k (upsertEnrichment now r t) = true := by
  unfold upsertEnrichment
  split
  · rw [hasKey_map]
    exact h
  · unfold hasKey at h ⊢
    rw [List.any_append, h]
    rfl

lemma insertAll_cons (now : Nat) (r : EnrichmentRecord) (rs : List EnrichmentRecord)
    (t : List EnrichmentRow) :
    insertAllEnrichment now (r :: rs) t =
      insertAllEnrichment now rs (upsertEnrichment now r t) := rfl

lemma hasKey_insertAll_mono (now : Nat) (recs : List EnrichmentRecord)
    (k : String × String × String) (t : List EnrichmentRow) (h : hasKey k t = true) :
    hasKey k (insertAllEnrichment now recs t) = true := by
  induction recs generalizing t with
  | nil => exact h
  | cons r rs ih =>
    rw [insertAll_cons]
    exact ih _ (hasKey_upsert_mono now r k t h)

lemma hasKey_insertAll_of_mem (now : Nat) (recs : List EnrichmentRecord) :
    ∀ (t : List EnrichmentRow) (r : EnrichmentRecord), r ∈ recs →
      hasKey (enrichKey r) (insertAllEnrichment now recs t) = true := by
  induction recs with
  | nil => intro t r h; cases h
  | cons a rs ih =>
    intro t r h
    rw [insertAll_cons]
    rcases List.mem_cons.mp h with h1 | h2
    · subst h1
      exact hasKey_insertAll_mono now rs _ _ (hasKey_upsert_self now r t)
    · exact ih _ r h2

lemma upsert_of_hasKey (now : Nat) (r : EnrichmentRecord) (t : List EnrichmentRow)
    (h : hasKey (enrichKey r) t = true) :
    upsertEnrichment now r t = t.map (applyConflict now r) := by
  unfold upsertEnrichment
  rw [if_pos h]

lemma updAll_cons (now : Nat) (r : EnrichmentRecord) (rs : List EnrichmentRecord)
    (row : EnrichmentRow) :
    updAll now (r :: rs) row = updAll now rs (applyConflict now r row) := rfl

lemma insertAll_of_keys (now : Nat) (recs : List EnrichmentRecord) :
    ∀ s : List EnrichmentRow, (∀ r ∈ recs, hasKey (enrichKey r) s = true) →
      insertAllEnrichment now recs s = s.map (updAll now recs) := by
  induction recs with
  | nil =>
    intro s _
    have hid : List.map (updAll now []) s = List.map id s :=
      List.map_congr_left (fun row _ => rfl)
    rw [hid, List.map_id]
    rfl
  | cons r rs ih =>
    intro s h
    rw [insertAll_cons, upsert_of_hasKey now r s (h r (List.mem_cons_self r rs)),
      ih (s.map (applyConflict now r))
        (fun r2 h2 => by rw [hasKey_map]; exact h r2 (List.mem_cons_of_mem _ h2)),
      List.map_map]
    exact List.map_congr_left (fun row _ => rfl)

lemma updAll_no_match (now : Nat) (recs : List EnrichmentRecord) (row : EnrichmentRow)
    (h : ∀ r ∈ recs, enrichKey r ≠ rowKey row) : updAll now recs row = row := by
  induction recs with
  | nil => rfl
  | cons r rs ih =>
    rw [updAll_cons]
    have hne : applyConflict now r row = row := by
      unfold applyConflict
      rw [if_neg (fun hk => h r (List.mem_cons_self r rs) hk.symm)]
    rw [hne]
    exact ih (fun r2 h2 => h r2 (List.mem_cons_of_mem _ h2))

lemma lastMatch_none_no_match (k : String × String × String)
    (recs : List EnrichmentRecord) (h : lastMatch k recs = none) :
    ∀ r ∈ recs, enrichKey r ≠ k := by
  induction recs with
  | nil => intro r hr; cases hr
  | cons a rs ih =>
    unfold lastMatch at h
    cases hm : lastMatch k rs with
    | some r2 => rw [hm] at h; cases h
    | none =>
      rw [hm] at h
      intro r hr
      rcases List.mem_cons.mp hr with h1 | h2
      · subst h1
        intro hk
        rw [if_pos hk] at h
        cases h
      · exact ih hm r h2

lemma updAll_lastMatch_none (now : Nat) (recs : List EnrichmentRecord)
    (row : EnrichmentRow) (h : lastMatch (rowKey row) recs = none) :
    updAll now recs row = row :=
  updAll_no_match now recs row (lastMatch_none_no_match _ _ h)

lemma updAll_lastMatch_some (now : Nat) (recs : List EnrichmentRecord) :
    ∀ (row : EnrichmentRow) (r2 : EnrichmentRecord),
      lastMatch (rowKey row) recs = some r2 → updAll now recs row = ⟨r2, now⟩ := by
  induction recs with
  | nil => intro row r2 h; cases h
  | cons a rs ih =>
    intro row r2 h
    unfold lastMatch at h
    rw [updAll_cons]
    cases hm : lastMatch (rowKey row) rs with
    | some r3 =>
      rw [hm] at h
      injection h with h
      rw [← h]
      exact ih (applyConflict now a row) r3 (by rw [rowKey_applyConflict]; exact hm)
    | none =>
      rw [hm] at h
      by_cases hk : enrichKey a = rowKey row
      · rw [if_pos hk] at h
        injection h with h
        rw [← h]
        have hrow : applyConflict now a row = ⟨a, now⟩ := by
          unfold applyConflict
          rw [if_pos hk.symm]
        rw [hrow]
        apply updAll_no_match
        intro r3 h3
        rw [rowKey_mk, hk]
        exact lastMatch_none_no_match _ _ hm r3 h3
      · rw [if_neg hk] at h
        cases h

lemma mem_upsert_key (now : Nat) (r : EnrichmentRecord) (t : List EnrichmentRow)
    (row : EnrichmentRow) (h : row ∈ upsertEnrichment now r t)
    (hk : rowKey row = enrichKey r) : row = ⟨r, now⟩ := by
  unfold upsertEnrichment at h
  split at h
  · rcases List.mem_map.mp h with ⟨x, hx, hmap⟩
    unfold applyConflict at hmap
    split at hmap
    · exact hmap.symm
    · rename_i hxk
      rw [hmap] at hxk
      exact absurd hk hxk
  · rename_i hcond
    rcases List.mem_append.mp h with h1 | h1
    · exfalso
      apply hcond
      unfold hasKey
      rw [List.any_eq_true]
      exact ⟨row, h1, decide_eq_true hk⟩
    · exact List.mem_singleton.mp h1

lemma frame_one (now : Nat) (r2 : EnrichmentRecord) (k : String × String × String)
    (s : List EnrichmentRow) (row : EnrichmentRow) (hne : enrichKey r2 ≠ k)
    (h : row ∈ upsertEnrichment now r2 s) (hk : rowKey row = k) : row ∈ s := by
  unfold upsertEnrichment at h
  split at h
  · rcases List.mem_map.mp h with ⟨x, hx, hmap⟩
    unfold applyConflict at hmap
    split at hmap
    · exfalso
      apply hne
      rw [← hk, ← hmap, rowKey_mk]
    · exact hmap ▸ hx
  · rcases List.mem_append.mp h with h1 | h1
    · exact h1
    · exfalso
      apply hne
      rw [← hk, List.mem_singleton.mp h1, rowKey_mk]

lemma frame_many (now : Nat) (rs : List EnrichmentRecord) (k : String × String × String) :
    ∀ (s : List EnrichmentRow) (row : EnrichmentRow),
      (∀ r2 ∈ rs, enrichKey r2 ≠ k) → row ∈ insertAllEnrichment now rs s →
      rowKey row = k → row ∈ s := by
  induction rs with
  | nil => intro s row _ h _; exact h
  | cons a rs ih =>
    intro s row hne h hk
    rw [insertAll_cons] at h
    have h2 : row ∈ upsertEnrichment now a s :=
      ih _ row (fun r2 hr2 => hne r2 (List.mem_cons_of_mem _ hr2)) h hk
    exact frame_one now a k s row (hne a (List.mem_cons_self a rs)) h2 hk

lemma last_write (now : Nat) (recs : List EnrichmentRecord) :
    ∀ (t : List EnrichmentRow) (row : EnrichmentRow) (r2 : EnrichmentRecord),
      row ∈ insertAllEnrichment now recs t → lastMatch (rowKey row) recs = some r2 →
      row = ⟨r2, now⟩ := by
  induction recs with
  | nil => intro t row r2 _ h; cases h
  | cons a rs ih =>
    intro t row r2 hmem h
    unfold lastMatch at h
    rw [insertAll_cons] at hmem
    cases hm : lastMatch (rowKey row) rs with
    | some r3 =>
      rw [hm] at h
      injection h with h
      rw [← h]
      exact ih (upsertEnrichment now a t) row r3 hmem hm
    | none =>
      rw [hm] at h
      by_cases hk : enrichKey a = rowKey row
      · rw [if_pos hk] at h
        injection h with h
        rw [← h]
        have hrow : row ∈ upsertEnrichment now a t :=
          frame_many now rs (rowKey row) (upsertEnrichment now a t) row
            (lastMatch_none_no_match _ _ hm) hmem rfl
        exact mem_upsert_key now a t row hrow hk.symm
      · rw [if_neg hk] at h
        cases h

/-- Claim C4: applying the enrichment batch upsert twice for the same
record set (within one statement timestamp) yields the same table contents
— and hence the same row count — as applying it once; and on a natural-key
conflict the upsert overwrites every non-key field of the existing row
with the incoming record's values and sets `updated_at` to the statement
timestamp. -/
theorem c4_upsert_idempotent_and_overwrites :
    (∀ (now : Nat) (recs : List EnrichmentRecord) (t : List EnrichmentRow),
      insertAllEnrichment now recs (insertAllEnrichment now recs t) =
        insertAllEnrichment now recs t) ∧
    (∀ (now : Nat) (r : EnrichmentRecord) (t : List EnrichmentRow),
      hasKey (enrichKey r) t = true →
      ∀ row ∈ upsertEnrichment now r t, rowKey row = enrichKey r → row = ⟨r, now⟩) := by
  constructor
  · intro now recs t
    rw [insertAll_of_keys now recs (insertAllEnrichment now recs t)
      (fun r hr => hasKey_insertAll_of_mem now recs t r hr)]
    have hfix : ∀ row ∈ insertAllEnrichment now recs t, updAll now recs row = row := by
      intro row hrow
      cases hm : lastMatch (rowKey row) recs with
      | none => exact updAll_lastMatch_none now recs row hm
      | some r2 =>
        rw [updAll_lastMatch_some now recs row r2 hm]
        exact (last_write now recs t row r2 hrow hm).symm
    rw [List.map_congr_left hfix]
    exact List.map_id _
  · intro now r t _ row hmem hk
    exact mem_upsert_key now r t row hmem hk

/-- Witness for C4 at a concrete record set and table. -/
theorem c4_upsert_idempotent_and_overwrites_witness :
    (insertAllEnrichment 0 [recSample] (insertAllEnrichment 0 [recSample] []) =
      insertAllEnrichment 0 [recSample] []) ∧
    (⟨recSample, 0⟩ : EnrichmentRow) = ⟨recSample, 0⟩ :=
  ⟨c4_upsert_idempotent_and_overwrites.1 0 [recSample] [],
   c4_upsert_idempotent_and_overwrites.2 0 recSample [⟨recOld, 5⟩] (by decide)
     ⟨recSample, 0⟩ (by decide) (by decide)⟩

/-! ### Enrichment parsing lemmas -/

lemma parseItems_sound (c d : String) (items : List EnrichmentItem) :
    ∀ r ∈ parseItems c d items, r.term_id ≠ "" ∧ r.term_description ≠ "" := by
  induction items with
  | nil => intro r hr; cases hr
  | cons it rest ih =>
    intro r hr
    unfold parseItems at hr
    split at hr
    · exact ih r hr
    · rename_i hcond
      push_neg at hcond
      rcases List.mem_cons.mp hr with h1 | h2
      · subst h1; exact hcond
      · exact ih r h2

lemma parseItems_length (c d : String) (items : List EnrichmentItem) :
    (parseItems c d items).length = items.length - items.countP (isDropped c d) := by
  induction items with
  | nil => rfl
  | cons it rest ih =>
    have hle : rest.countP (isDropped c d) ≤ rest.length := List.countP_le_length _
    rw [List.countP_cons]
    by_cases h : (buildRecord c d it).term_id = "" ∨
        (buildRecord c d it).term_description = ""
    · have hstep : parseItems c d (it :: rest) = parseItems c d rest := by
        simp only [parseItems]
        rw [if_pos h]
      have hp : isDropped c d it = true := decide_eq_true h
      rw [hstep, ih]
      simp only [hp, List.length_cons]
      simp
    · have hstep : parseItems c d (it :: rest) =
          buildRecord c d it :: parseItems c d rest := by
        simp only [parseItems]
        rw [if_neg h]
      have hp : isDropped c d it = false := decide_eq_false h
      rw [hstep, List.length_cons, ih]
      simp only [hp, List.length_cons]
      simp
      omega

lemma parseItems_from (c d : String) (items : List EnrichmentItem) :
    ∀ r ∈ parseItems c d items, ∃ it ∈ items, r = buildRecord c d it := by
  induction items with
  | nil => intro r hr; cases hr
  | cons it rest ih =>
    intro r hr
    unfold parseItems at hr
    split at hr
    · obtain ⟨it2, h2, h3⟩ := ih r hr
      exact ⟨it2, List.mem_cons_of_mem _ h2, h3⟩
    · rcases List.mem_cons.mp hr with h1 | h2
      · exact ⟨it, List.mem_cons_self it rest, h1⟩
      · obtain ⟨it2, h3, h4⟩ := ih r h2
        exact ⟨it2, List.mem_cons_of_mem _ h3, h4⟩

/-- Claim C5: every record emitted by the enrichment parser has a
non-empty term identifier and description, and the number of emitted
records equals the number of input objects minus the number of dropped
objects. -/
theorem c5_parse_validation_and_count (c d : String) (items : List EnrichmentItem) :
    (∀ r ∈ parseItems c d items, r.term_id ≠ "" ∧ r.term_description ≠ "") ∧
    (parseItems c d items).length = items.length - items.countP (isDropped c d) :=
  ⟨parseItems_sound c d items, parseItems_length c d items⟩

/-- Witness for C5 at a concrete two-object input (one valid object, one
dropped object). -/
theorem c5_parse_validation_and_count_witness :
    (buildRecord "c" "KEGG" itemGood).term_id ≠ "" ∧
    (parseItems "c" "KEGG" [itemGood, itemBad]).length =
      [itemGood, itemBad].length - List.countP (isDropped "c" "KEGG") [itemGood, itemBad] :=
  ⟨((c5_parse_validation_and_count "c" "KEGG" [itemGood, itemBad]).1
      (buildRecord "c" "KEGG" itemGood) (by decide)).1,
   (c5_parse_validation_and_count "c" "KEGG" [itemGood, itemBad]).2⟩

/-- Claim C8: each absent source key of an input object is replaced by its
bucket's default in the built record — the empty string for text fields,
zero for the gene count, 0.0 for the enrichment score and 1.0 for the
false-discovery-rate — and every emitted record is the built record of
some input object. -/
theorem c8_defaults_for_absent_keys (c d : String) (it : EnrichmentItem) :
    (it.termId = none → (buildRecord c d it).term_id = "") ∧
    (it.termDescription = none → (buildRecord c d it).term_description = "") ∧
    (it.genesMapped = none → (buildRecord c d it).genes_mapped = 0) ∧
    (it.enrichmentScore = none → (buildRecord c d it).enrichment_score = 0) ∧
    (it.direction = none → (buildRecord c d it).direction = "") ∧
    (it.falseDiscoveryRate = none → (buildRecord c d it).false_discovery_rate = 1) ∧
    (it.method = none → (buildRecord c d it).method = "") ∧
    (it.matchingProteinIds = none → (buildRecord c d it).matching_protein_ids = "") ∧
    (it.matchingProteinLabels = none → (buildRecord c d it).matching_protein_labels = "") ∧
    (∀ (items : List EnrichmentItem) (r : EnrichmentRecord),
      r ∈ parseItems c d items → ∃ it2 ∈ items, r = buildRecord c d it2) := by
  refine ⟨?_, ?_, ?_, ?_, ?_, ?_, ?_, ?_, ?_, fun items => parseItems_from c d items⟩
  all_goals intro h
  all_goals simp [buildRecord, h]

/-- Witness for C8 at a concrete object lacking most source keys. -/
theorem c8_defaults_for_absent_keys_witness :
    (buildRecord "c" "KEGG" itemBad).term_id = "" ∧
    (buildRecord "c" "KEGG" itemBad).genes_mapped = 0 ∧
    (buildRecord "c" "KEGG" itemBad).enrichment_score = 0 ∧
    (buildRecord "c" "KEGG" itemBad).false_discovery_rate = 1 :=
  ⟨(c8_defaults_for_absent_keys "c" "KEGG" itemBad).1 rfl,
   (c8_defaults_for_absent_keys "c" "KEGG" itemBad).2.2.1 rfl,
   (c8_defaults_for_absent_keys "c" "KEGG" itemBad).2.2.2.1 rfl,
   (c8_defaults_for_absent_keys "c" "KEGG" itemBad).2.2.2.2.2.1 rfl⟩

lemma allRecords_foldl (files : List EnrichmentFile) :
    ∀ acc : List EnrichmentRecord,
      List.foldl (fun a f => a ++ parseEnrichmentFile f) acc files =
        acc ++ (files.map parseEnrichmentFile).flatten := by
  induction files with
  | nil => intro acc; simp
  | cons f fs ih =>
    intro acc
    simp only [List.foldl_cons, List.map_cons, List.flatten_cons, ih, List.append_assoc]

lemma allRecords_eq (files : List EnrichmentFile) :
    allRecords files = (files.map parseEnrichmentFile).flatten := by
  unfold allRecords
  rw [allRecords_foldl files []]
  rfl

lemma allRecords_append (l1 l2 : List EnrichmentFile) :
    allRecords (l1 ++ l2) = allRecords l1 ++ allRecords l2 := by
  simp [allRecords_eq, List.map_append, List.flatten_append]

/-- Claim C9: an enrichment file whose content is undecodable JSON or not
an array parses to the empty record list without raising, and such a file
contributes nothing to the accumulated records while the remaining files
are processed normally. -/
theorem c9_bad_file_empty_and_skipped :
    (∀ c d : String,
      parseEnrichmentFile ⟨c, d, JsonContent.invalid⟩ = [] ∧
      parseEnrichmentFile ⟨c, d, JsonContent.nonArray⟩ = []) ∧
    (∀ (pre suf : List EnrichmentFile) (f : EnrichmentFile),
      parseEnrichmentFile f = [] →
      allRecords (pre ++ f :: suf) = allRecords pre ++ allRecords suf) := by
  constructor
  · intro c d
    exact ⟨rfl, rfl⟩
  · intro pre suf f h
    rw [show pre ++ f :: suf = pre ++ [f] ++ suf by simp, allRecords_append,
      allRecords_append]
    have h1 : allRecords [f] = [] := by
      rw [allRecords_eq]
      simp [h]
    rw [h1, List.append_nil]

/-- Witness for C9 at a concrete file list containing one undecodable
file. -/
theorem c9_bad_file_empty_and_skipped_witness :
    parseEnrichmentFile fileBad = [] ∧
    allRecords [fileGood, fileBad] = allRecords [fileGood] ++ allRecords [] :=
  ⟨(c9_bad_file_empty_and_skipped.1 "c" "KEGG").1,
   c9_bad_file_empty_and_skipped.2 [fileGood] [] fileBad rfl⟩

/-! ### Error handling and exit codes -/

/-- Claim C6, counterexample: in an RNA-seq `--all` run over comparisons
`A` (whose batch insert raises a database error) and `B` (healthy), the
run dies with exit code 1 at `A` — comparison `B` is never processed —
whereas without the error both comparisons are processed.  This refutes
the claim that unrelated units of work continue to be processed. -/
theorem c6_counterexample :
    migrateAllRna [("A", true), ("B", false)] = Except.error 1 ∧
    migrateAllRna [("A", false), ("B", false)] = Except.ok ["A", "B"] :=
  ⟨rfl, rfl⟩

/-- Claim C6, amended: on a database error during insertion the enclosing
transaction is rolled back; the enrichment loader reports zero rows
written for the run's combined record set (its transaction unit is one
run, not one file) and the table is unchanged, while the RNA-seq loader
rolls back and exits the process with code 1, so subsequent comparisons
in the same run are not processed. -/
theorem c6_error_rollback_amended :
    (∀ (t : List EnrichmentRow) (recs : List EnrichmentRecord) (now : Nat),
      insertEnrichmentData t recs true now = (t, 0)) ∧
    (∀ (c : String) (rest : List (String × Bool)),
      migrateAllRna ((c, true) :: rest) = Except.error 1) ∧
    (∀ t rows : List (GeneRow Nat), insertDataToDatabase t rows true = Except.error 1) := by
  refine ⟨?_, ?_, ?_⟩
  · intro t recs now
    unfold insertEnrichmentData
    by_cases h : recs.isEmpty <;> simp [h]
  · intro c rest
    rfl
  · intro t rows
    rfl

/-- Claim C7, counterexample: when the scan finds no enrichment files, the
run prints a message and returns normally, so the process exits with code
0, not a non-zero status. -/
theorem c7_counterexample :
    mainExitCode (ScanOutcome.found []) false false 0 [] RunEvent.completed = 0 := rfl

/-- Claim C7, amended: the process exits non-zero (code 1) on a missing
source directory, on a user interrupt, and on an unhandled exception; but
when no input files are found, or when no valid records are parsed (e.g.
the only file is undecodable), the run stops early and the process exits
with code 0. -/
theorem c7_exit_codes_amended :
    (∀ (dr db : Bool) (now : Nat) (t : List EnrichmentRow),
      mainExitCode ScanOutcome.missingDir dr db now t RunEvent.completed = 1) ∧
    (∀ (scan : ScanOutcome) (dr db : Bool) (now : Nat) (t : List EnrichmentRow),
      mainExitCode scan dr db now t RunEvent.interrupted = 1) ∧
    (∀ (scan : ScanOutcome) (dr db : Bool) (now : Nat) (t : List EnrichmentRow),
      mainExitCode scan dr db now t RunEvent.raised = 1) ∧
    (∀ (dr db : Bool) (now : Nat) (t : List EnrichmentRow),
      mainExitCode (ScanOutcome.found []) dr db now t RunEvent.completed = 0) ∧
    (∀ (dr db : Bool) (now : Nat) (t : List EnrichmentRow) (c d : String),
      mainExitCode (ScanOutcome.found [⟨c, d, JsonContent.invalid⟩]) dr db now t
        RunEvent.completed = 0) := by
  refine ⟨?_, ?_, ?_, ?_, ?_⟩
  · intro dr db now t
    rfl
  · intro scan dr db now t
    rfl
  · intro scan dr db now t
    rfl
  · intro dr db now t
    rfl
  · intro dr db now t c d
    rfl

end GeneVis
